import Mathlib

/-
Formal model of the MCP (Model Context Protocol) integration layer of the
suna backend: request/response correlation and connection lifecycle of
the protocol client (backend/agentpress/mcp/client.py), multi-server tool
discovery in the server manager (server_manager.py), the tool-gating
policy of the gateway (tool_gateway.py), and argument validation, default
application and XML schema flattening in the tool wrapper (tool_wrapper.py).

Python dicts are modelled as association lists with unique keys;
asynchronous outcomes (a response arriving, a timeout, an exception raised
by the transport) are passed as explicit parameters, so every operation is
a total function on explicit state.
-/

/-! ## JSON-like values -/

/-- A JSON-like Python value as it appears in protocol messages,
tool arguments and schema defaults. -/
inductive JVal where
  | null : JVal
  | bool (b : Bool) : JVal
  | int (n : Int) : JVal
  | str (s : String) : JVal
  | arr (elems : List JVal) : JVal
  | obj (fields : List (String × JVal)) : JVal

mutual

/-- Python str() rendering of a value, as used by f-string interpolation
(str(True) is "True", str of a string has no quotes). -/
def pyStr : JVal → String
  | .null => "None"
  | .bool true => "True"
  | .bool false => "False"
  | .int n => toString n
  | .str s => s
  | .arr elems => "[" ++ pyReprList elems ++ "]"
  | .obj fields => "\x7b" ++ pyReprFields fields ++ "\x7d"

/-- Python repr() rendering, used for elements nested inside containers
(strings are quoted there). -/
def pyRepr : JVal → String
  | .str s => "\x27" ++ s ++ "\x27"
  | .null => "None"
  | .bool true => "True"
  | .bool false => "False"
  | .int n => toString n
  | .arr elems => "[" ++ pyReprList elems ++ "]"
  | .obj fields => "\x7b" ++ pyReprFields fields ++ "\x7d"

/-- Comma-separated repr of list elements. -/
def pyReprList : List JVal → String
  | [] => ""
  | [v] => pyRepr v
  | v :: rest => pyRepr v ++ ", " ++ pyReprList rest

/-- Comma-separated repr of dict fields. -/
def pyReprFields : List (String × JVal) → String
  | [] => ""
  | [(k, v)] => "\x27" ++ k ++ "\x27: " ++ pyRepr v
  | (k, v) :: rest => "\x27" ++ k ++ "\x27: " ++ pyRepr v ++ ", " ++ pyReprFields rest

end

/-! ## Association-list model of Python dicts -/

section Dict

variable {κ α : Type} [DecidableEq κ]

/-- Lookup in a dict modelled as an association list (first match). -/
def alookup : List (κ × α) → κ → Option α
  | [], _ => none
  | (k0, v0) :: rest, k => if k0 = k then some v0 else alookup rest k

/-- Setting a key in a dict: replace the existing entry in place, or append
a fresh entry at the end (Python dict insertion-order semantics). -/
def pyInsert : List (κ × α) → κ → α → List (κ × α)
  | [], k, v => [(k, v)]
  | (k0, v0) :: rest, k, v =>
      if k0 = k then (k, v) :: rest else (k0, v0) :: pyInsert rest k v

/-- Removing a key from a dict (dict.pop with a default never raises). -/
def pyPop : List (κ × α) → κ → List (κ × α)
  | [], _ => []
  | (k0, v0) :: rest, k =>
      if k0 = k then pyPop rest k else (k0, v0) :: pyPop rest k

/-- dict.update: apply every entry of the second dict over the first,
each present key replacing the base value verbatim. -/
def pyUpdate (base ext : List (κ × α)) : List (κ × α) :=
  ext.foldl (fun acc e => pyInsert acc e.1 e.2) base

end Dict

/-! ## Protocol client (backend/agentpress/mcp/client.py) -/

/-- A remote JSON-RPC error object (the "error" member of a response). -/
structure RpcErr where
  message : Option String := none

/-- An incoming JSON-RPC message as decoded from one line of the
transport: optional id, optional method, optional result, optional error.
A field set to none models the key being absent from the dict. -/
structure Message where
  id : Option Nat := none
  method : Option String := none
  result : Option JVal := none
  rpcError : Option RpcErr := none

namespace MCPClient

/-- The state of the asyncio Future of one pending request. -/
inductive FutureState where
  | pending : FutureState
  | resolved (response : Message) : FutureState
  | cancelled : FutureState

/-- future.done(): whether the future already carries a result or was
cancelled. -/
def FutureState.done : FutureState → Bool
  | .pending => false
  | .resolved _ => true
  | .cancelled => true

/-- The map owned by the client from in-flight request id to pending Future. -/
abbrev PendingMap := List (Nat × FutureState)

/-- MCPClient._handle_response: a message carrying an id completes the
matching pending future (set_result with the whole message) when that
future exists and is not yet done; a message without an id is a
notification and leaves the pending map untouched. -/
def handleResponse (pending : PendingMap) (msg : Message) : PendingMap :=
  match msg.id with
  | some requestId =>
      match alookup pending requestId with
      | some fut =>
          if fut.done then pending
          else pyInsert pending requestId (FutureState.resolved msg)
      | none => pending
  | none => pending

/-- The mutable state of one MCPClient instance: the connected flag, the
subprocess transport (modelled as a running flag), the request-id counter
and the pending-request map. -/
structure ClientState where
  name : String
  connected : Bool := false
  processRunning : Bool := false
  requestId : Nat := 0
  pending : PendingMap := []
  serverCapabilities : Option JVal := none

/-- A freshly constructed client for a stdio config. -/
def initClient (name : String) : ClientState :=
  { name := name }

/-- MCPClient.connect for the stdio transport. The subprocess spawn and
the handshake round trip are asynchronous effects, passed in as explicit
outcomes: spawnOk says whether create_subprocess_exec succeeded, and
handshake is the result of the handshake request (server capabilities, or
the error text of the exception it raised). Returns the state the client
object is left in, and the MCPConnectionError message propagated to the
caller, if any. -/
def connect (st : ClientState) (spawnOk : Bool)
    (handshake : Except String JVal) : ClientState × Option String :=
  if spawnOk then
    let st1 : ClientState := { st with processRunning := true, connected := true }
    match handshake with
    | .ok caps =>
        ({ st1 with requestId := st1.requestId + 1, serverCapabilities := some caps }, none)
    | .error e =>
        ({ st1 with requestId := st1.requestId + 1, connected := false },
         some ("Failed to connect to MCP server " ++ st.name ++
               ": Initialization failed: " ++ e))
  else
    (st, some ("Failed to connect to MCP server " ++ st.name ++
               ": Failed to start MCP server process: spawn failed"))

/-- MCPClient.disconnect: clears the connected flag, cancels every pending
future, terminates the subprocess and clears the pending map. -/
def disconnect (st : ClientState) : ClientState :=
  { st with connected := false, processRunning := false, pending := [] }

/-- The asynchronous outcome of awaiting the future of one request. -/
inductive Outcome where
  | response (msg : Message) : Outcome
  | timeout : Outcome
  | cancelled : Outcome

/-- MCPClient.send_request: allocates the next request id, registers a
pending future under it, writes the request, and awaits the future with a
timeout; the finally block always pops exactly that id from the pending
map. A response carrying an "error" member raises an RPC error; a timeout
raises a timeout error; otherwise the "result" member is returned. The
timeout rendering (str of the float budget) is passed as timeoutStr. -/
def sendRequest (st : ClientState) (timeoutStr : String) (outcome : Outcome) :
    ClientState × Except String (Option JVal) :=
  if st.connected then
    let requestId := st.requestId + 1
    let registered := pyInsert st.pending requestId FutureState.pending
    let finalPending := pyPop registered requestId
    let st1 : ClientState := { st with requestId := requestId, pending := finalPending }
    match outcome with
    | .response msg =>
        match msg.rpcError with
        | some err =>
            (st1, .error ("RPC error: " ++ err.message.getD "Unknown error"))
        | none => (st1, .ok msg.result)
    | .timeout =>
        (st1, .error ("Request timeout after " ++ timeoutStr ++ " seconds"))
    | .cancelled => (st1, .error "cancelled")
  else
    (st, .error "Client not connected")

end MCPClient

/-! ## Tool descriptors shared by manager and gateway -/

/-- A tool dict as produced by tools/list discovery: its name, plus the
"_server_name" tag the manager adds before returning it (none models the
key being absent). -/
structure MTool where
  name : String
  serverName : Option String := none

/-! ## Server manager (backend/agentpress/mcp/server_manager.py) -/

/-- One entry of the server_configs list. Optional fields model keys that
may be absent from the config dict. -/
structure ServerConfig where
  name : String
  enabled : Option Bool := none
  allowed_tools : Option (List String) := none
  project_scope : Option String := none

namespace MCPServerManager

/-- One connected client, with the outcome of its asynchronous
list_tools() call passed in explicitly (an error models the exception the
call raised). -/
structure MClient where
  name : String
  listToolsResult : Except String (List MTool)

/-- MCPServerManager._is_tool_allowed: if the server config (or the empty
dict used when no config matches the client name) carries no allowed_tools
list, every tool is allowed; otherwise only listed tools are. -/
def serverAllowsTool (toolName : String) (serverConfig : Option ServerConfig) : Bool :=
  match serverConfig with
  | none => true
  | some cfg =>
      match cfg.allowed_tools with
      | none => true
      | some ts => decide (toolName ∈ ts)

/-- MCPServerManager.get_available_tools: for each connected client, try
list_tools; a failing client is logged and contributes nothing; each
discovered tool passing the allow-list of its own server is tagged with the
origin server name and appended to the result. -/
def getAvailableTools (serverConfigs : List ServerConfig)
    (connectedClients : List MClient) : List MTool :=
  connectedClients.foldl
    (fun allTools client =>
      match client.listToolsResult with
      | .error _ => allTools
      | .ok tools =>
          let serverConfig := serverConfigs.find? (fun c => decide (c.name = client.name))
          allTools ++
            ((tools.filter (fun t => serverAllowsTool t.name serverConfig)).map
              (fun t => { t with serverName := some client.name })))
    []

/-- The tools one client contributes to get_available_tools: nothing on a
list_tools failure, otherwise its tools filtered by the own-server
allow-list and tagged with the origin server name. -/
def clientContribution (serverConfigs : List ServerConfig) (client : MClient) :
    List MTool :=
  match client.listToolsResult with
  | .error _ => []
  | .ok tools =>
      (tools.filter (fun t => serverAllowsTool t.name
          (serverConfigs.find? (fun c => decide (c.name = client.name))))).map
        (fun t => { t with serverName := some client.name })

end MCPServerManager

/-! ## Tool gateway gating (backend/agentpress/mcp/tool_gateway.py) -/

/-- The tool_gating dict (or one project override): each field is an
optional key; for allowed_servers and allowed_tools the inner Option
distinguishes an explicit null value from a list. -/
structure GatingDict where
  mode : Option String := none
  blocked_tools : Option (List String) := none
  allowed_servers : Option (Option (List String)) := none
  allowed_tools : Option (Option (List String)) := none

/-- The config dict of the gateway: the base tool_gating policy and the
project_overrides map. -/
structure GatewayConfig where
  tool_gating : Option GatingDict := none
  project_overrides : Option (List (String × GatingDict)) := none

namespace MCPToolGateway

/-- dict.update on a gating dict: every key present in the override
replaces the base value verbatim; absent keys keep the base value. -/
def updateGating (base ov : GatingDict) : GatingDict :=
  { mode := ov.mode <|> base.mode,
    blocked_tools := ov.blocked_tools <|> base.blocked_tools,
    allowed_servers := ov.allowed_servers <|> base.allowed_servers,
    allowed_tools := ov.allowed_tools <|> base.allowed_tools }

/-- MCPToolGateway._get_effective_config: a copy of the base tool_gating
dict, updated with the override entry of the project when one exists. -/
def getEffectiveConfig (cfg : GatewayConfig) (projectId : String) : GatingDict :=
  let baseConfig := cfg.tool_gating.getD {}
  match alookup (cfg.project_overrides.getD []) projectId with
  | some ov => updateGating baseConfig ov
  | none => baseConfig

/-- MCPToolGateway._is_tool_allowed: blocked_tools check first, then the
server allow-list, then the tool allow-list, each under the effective
per-project config; a missing "_server_name" key defaults to "". -/
def isToolAllowed (cfg : GatewayConfig) (toolInfo : MTool) (projectId : String) : Bool :=
  let effectiveConfig := getEffectiveConfig cfg projectId
  let toolName := toolInfo.name
  let serverName := toolInfo.serverName.getD ""
  let blockedTools := effectiveConfig.blocked_tools.getD []
  if toolName ∈ blockedTools then false
  else
    let allowedServers := effectiveConfig.allowed_servers.getD none
    if allowedServers.isSome && !(decide (serverName ∈ allowedServers.getD [])) then false
    else
      let allowedTools := effectiveConfig.allowed_tools.getD none
      if allowedTools.isSome && !(decide (toolName ∈ allowedTools.getD [])) then false
      else true

/-- MCPToolGateway._filter_tools_by_gating: mode comes from the base
tool_gating dict (default "all"); "none" filters everything out, "all" and
"selective" filter by _is_tool_allowed, and any unknown mode is logged and
returns the tool list unchanged. -/
def filterToolsByGating (cfg : GatewayConfig) (tools : List MTool)
    (projectId : String) : List MTool :=
  let gatingConfig := cfg.tool_gating.getD {}
  let mode := gatingConfig.mode.getD "all"
  if mode = "none" then []
  else if mode = "all" then tools.filter (fun t => isToolAllowed cfg t projectId)
  else if mode = "selective" then tools.filter (fun t => isToolAllowed cfg t projectId)
  else tools

/-- The gating rule as the spec states it: reject a blocked name; reject
when a server allow-list is set and the origin server is not a member;
reject when a tool allow-list is set and the name is not a member;
otherwise accept. -/
def gatingSpec (eff : GatingDict) (t : MTool) : Prop :=
  t.name ∉ eff.blocked_tools.getD [] ∧
  (∀ servers, eff.allowed_servers.getD none = some servers →
      t.serverName.getD "" ∈ servers) ∧
  (∀ ts, eff.allowed_tools.getD none = some ts → t.name ∈ ts)

end MCPToolGateway

/-! ## Tool wrapper (backend/agentpress/mcp/tool_wrapper.py) -/

/-- A JSON-Schema-like object: its "type", "description", "default",
"required" and "properties" members, each optional or defaulting to empty
when the key is absent. Nested object properties make this recursive. -/
inductive JSchema where
  | mk (ty : Option String) (descr : Option String) (dflt : Option JVal)
       (required : List String) (props : List (String × JSchema))

/-- The "type" member of a schema node. -/
def JSchema.ty : JSchema → Option String
  | .mk t _ _ _ _ => t

/-- The "description" member of a schema node. -/
def JSchema.descr : JSchema → Option String
  | .mk _ d _ _ _ => d

/-- The "default" member of a schema node. -/
def JSchema.dflt : JSchema → Option JVal
  | .mk _ _ d _ _ => d

/-- The "required" member of a schema node. -/
def JSchema.required : JSchema → List String
  | .mk _ _ _ r _ => r

/-- The "properties" member of a schema node. -/
def JSchema.props : JSchema → List (String × JSchema)
  | .mk _ _ _ _ p => p

/-- Copy of a schema node with its description replaced (Python dict copy
followed by assignment to the description key). -/
def JSchema.withDescr : JSchema → String → JSchema
  | .mk t _ d r p, s => .mk t (some s) d r p

/-- Keyword arguments of a tool invocation. -/
abbrev ArgMap := List (String × JVal)

namespace MCPToolWrapper

/-- The result type returned to the host tool layer. -/
structure ToolResult where
  success : Bool
  output : String
deriving DecidableEq, Repr

/-- MCPToolWrapper._check_type: shallow type check of one value against a
declared JSON-schema type; in Python isinstance(True, int) holds, so bools
pass the integer and number checks; an unknown or absent type accepts
anything. -/
def checkType (value : JVal) (expected : Option String) : Bool :=
  if expected = some "string" then
    (match value with | .str _ => true | _ => false)
  else if expected = some "integer" then
    (match value with | .int _ => true | .bool _ => true | _ => false)
  else if expected = some "number" then
    (match value with | .int _ => true | .bool _ => true | _ => false)
  else if expected = some "boolean" then
    (match value with | .bool _ => true | _ => false)
  else if expected = some "array" then
    (match value with | .arr _ => true | _ => false)
  else if expected = some "object" then
    (match value with | .obj _ => true | _ => false)
  else true

/-- The required-property loop of _validate_arguments: the first required
name missing from the arguments yields the error message naming it. -/
def requiredScan (arguments : ArgMap) : List String → Option String
  | [] => none
  | r :: rest =>
      if (alookup arguments r).isNone then
        some ("Missing required argument: " ++ r)
      else requiredScan arguments rest

/-- The type-check loop of _validate_arguments over the supplied
arguments: the first argument failing the shallow type check against its
declared property schema yields the error message. -/
def typeErrorScan (props : List (String × JSchema)) : ArgMap → Option String
  | [] => none
  | (argName, argValue) :: rest =>
      match alookup props argName with
      | some propSchema =>
          if checkType argValue propSchema.ty then typeErrorScan props rest
          else
            some ("Invalid type for argument " ++ argName ++ ": expected " ++
                  (match propSchema.ty with | some t => t | none => "None"))
      | none => typeErrorScan props rest

/-- MCPToolWrapper._validate_arguments: required check first, then the
shallow type check; returns (is_valid, error_message). -/
def validateArguments (schema : JSchema) (arguments : ArgMap) : Bool × Option String :=
  match requiredScan arguments schema.required with
  | some err => (false, some err)
  | none =>
      match typeErrorScan schema.props arguments with
      | some err => (false, some err)
      | none => (true, none)

/-- The body of the _apply_defaults loop for one property: insert the
schema default when the property is absent from the arguments so far. -/
def applyDefaultsStep (acc : ArgMap) (p : String × JSchema) : ArgMap :=
  if (alookup acc p.1).isNone then
    match p.2.dflt with
    | some d => pyInsert acc p.1 d
    | none => acc
  else acc

/-- MCPToolWrapper._apply_defaults: every property carrying a schema
default and omitted from the arguments is inserted with exactly that
default value. -/
def applyDefaults (schema : JSchema) (arguments : ArgMap) : ArgMap :=
  schema.props.foldl applyDefaultsStep arguments

/-- One element of the content array of an MCP result. -/
structure ContentItem where
  itemType : Option String := none
  text : Option String := none
  mimeType : Option String := none
  resourceUri : Option String := none

/-- The dict returned by the call_tool method of the client: the isError flag
(absent means false) and the content array (absent means empty). -/
structure CallResult where
  isError : Bool := false
  content : List ContentItem := []

/-- MCPToolWrapper._format_mcp_response for one content item. -/
def formatContentItem (item : ContentItem) : String :=
  let t := item.itemType.getD "text"
  if t = "text" then item.text.getD ""
  else if t = "image" then "Image (" ++ item.mimeType.getD "unknown" ++ ")"
  else if t = "resource" then "Resource: " ++ item.resourceUri.getD "unknown"
  else "[" ++ t ++ " content]"

/-- MCPToolWrapper._format_mcp_response: newline-joined content parts, or
the literal "(No output)" for an empty content array. -/
def formatMcpResponse (response : CallResult) : String :=
  if response.content.isEmpty then "(No output)"
  else String.intercalate "\n" (response.content.map formatContentItem)

/-- The outcome of the awaited remote call_tool: either an exception with
its text, or the result dict. -/
inductive RemoteOutcome where
  | raises (e : String) : RemoteOutcome
  | returns (result : CallResult) : RemoteOutcome

/-- The tail of MCPToolWrapper.call_tool after validation: the try/except
converts an exception into a failure result carrying its text; an isError
result becomes a failure with the formatted content; otherwise a success
with the formatted content. -/
def handleRemoteOutcome (toolName : String) (outcome : RemoteOutcome) : ToolResult :=
  match outcome with
  | .raises e =>
      { success := false,
        output := "Error calling MCP tool " ++ toolName ++ ": " ++ e }
  | .returns result =>
      if result.isError then
        { success := false, output := "MCP tool error: " ++ formatMcpResponse result }
      else
        { success := true, output := formatMcpResponse result }

/-- MCPToolWrapper.call_tool: fail fast (without raising) when the owning
client is not connected; fail on validation errors; apply schema defaults;
delegate to the client with the completed arguments (the remote call is a
parameter, so the arguments it receives are observable); convert every
outcome into a ToolResult. -/
def callTool (connected : Bool) (serverName toolName : String) (schema : JSchema)
    (arguments : ArgMap) (remoteCall : ArgMap → RemoteOutcome) : ToolResult :=
  if !connected then
    { success := false, output := "MCP server " ++ serverName ++ " is not connected" }
  else
    match validateArguments schema arguments with
    | (false, err) => { success := false, output := err.getD "" }
    | (true, _) =>
        let finalArgs := applyDefaults schema arguments
        handleRemoteOutcome toolName (remoteCall finalArgs)

/-! ### XML schema flattening -/

/-- Python str.strip(): drop leading and trailing whitespace. -/
def isPySpace (c : Char) : Bool :=
  c = ' ' || c = '\t' || c = '\n' || c = '\r' || c = '\x0b' || c = '\x0c'

/-- Whitespace-stripping used by the description rewrite. -/
def pyStrip (s : String) : String :=
  String.mk (((s.data.dropWhile isPySpace).reverse.dropWhile isPySpace).reverse)

/-- The default-folding step of _flatten_schema_for_xml: a leaf carrying a
default gets " Default: <str(value)>" appended to its description and the
result stripped. -/
def addDefaultToDescription (propSchema : JSchema) : JSchema :=
  match propSchema.dflt with
  | some d =>
      propSchema.withDescr (pyStrip (propSchema.descr.getD "" ++ " Default: " ++ pyStr d))
  | none => propSchema

mutual

/-- MCPToolWrapper._flatten_schema_for_xml: walk the properties of a
schema, recursing into object-typed properties with the underscore-joined
prefix and collecting every other property as a leaf entry in an
insertion-ordered dict. -/
def flattenSchemaForXml : JSchema → String → List (String × JSchema)
  | .mk _ _ _ _ props, pre => flattenProps props pre []

/-- The properties loop of _flatten_schema_for_xml, building the
flattened dict (dict.update for nested results, keyed insert for leaves). -/
def flattenProps : List (String × JSchema) → String → List (String × JSchema) →
    List (String × JSchema)
  | [], _, flattened => flattened
  | (propName, propSchema) :: rest, pre, flattened =>
      let fullName := if pre = "" then propName else pre ++ "_" ++ propName
      let flattened1 :=
        if JSchema.ty propSchema = some "object" then
          pyUpdate flattened (flattenSchemaForXml propSchema fullName)
        else
          pyInsert flattened fullName (addDefaultToDescription propSchema)
      flattenProps rest pre flattened1

end

mutual

/-- Specification-side description of the leaves of a schema: every
non-object property, keyed by the underscore-joined path of property
names, carrying its original (unmodified) schema. -/
def leafEntries : JSchema → String → List (String × JSchema)
  | .mk _ _ _ _ props, pre => leafEntriesProps props pre

/-- Leaves of a property list under a prefix. -/
def leafEntriesProps : List (String × JSchema) → String → List (String × JSchema)
  | [], _ => []
  | (propName, propSchema) :: rest, pre =>
      let fullName := if pre = "" then propName else pre ++ "_" ++ propName
      (if JSchema.ty propSchema = some "object" then leafEntries propSchema fullName
       else [(fullName, propSchema)]) ++ leafEntriesProps rest pre

end

end MCPToolWrapper


/-! ## Concrete inputs used by the claim theorems -/

/-- The gating config of the override-replacement scenario: base policy
blocks tool "x"; project "P" overrides blocked_tools with the empty list. -/
def exCfgC3 : GatewayConfig :=
  { tool_gating := some { blocked_tools := some ["x"] },
    project_overrides := some [("P", { blocked_tools := some [] })] }

/-- The tool named "x" from server "A". -/
def exToolC3 : MTool := { name := "x", serverName := some "A" }

/-- The pending map of the correlation scenario: requests 1 and 2 both in
flight. -/
def pendC1 : MCPClient.PendingMap :=
  [(1, MCPClient.FutureState.pending), (2, MCPClient.FutureState.pending)]

/-- The response to request 1. -/
def msgC1a : Message := { id := some 1, result := some (.str "r1") }

/-- The response to request 2. -/
def msgC1b : Message := { id := some 2, result := some (.str "r2") }

/-- The client state of the timeout scenario: connected, request 1 already
in flight, counter at 1 (so the next request takes id 2). -/
def stC8 : MCPClient.ClientState :=
  { name := "srv", connected := true, processRunning := true, requestId := 1,
    pending := [(1, MCPClient.FutureState.pending)] }

/-- The input schema of the invocation scenario: required integer "a" and
optional integer "precision" with default 2. -/
def schemaC4 : JSchema :=
  .mk (some "object") none none ["a"]
    [("a", .mk (some "integer") none none [] []),
     ("precision", .mk (some "integer") none (some (.int 2)) [] [])]

/-- The schema with two leaves whose underscore-joined paths collide: a
top-level leaf "a_b" and a nested object "a" with leaf "b". -/
def cxSchemaC9 : JSchema :=
  .mk (some "object") none none []
    [("a_b", .mk (some "string") none none [] []),
     ("a", .mk (some "object") none none []
        [("b", .mk (some "string") none none [] [])])]

/-- The nested schema of the flattening scenario:
options.operation (string) and options.round_result (boolean, default
true). -/
def exSchemaC9 : JSchema :=
  .mk (some "object") none none []
    [("options", .mk (some "object") none none []
        [("operation", .mk (some "string") none none [] []),
         ("round_result", .mk (some "boolean") none (some (.bool true)) [] [])])]

/-! ## Dictionary lemmas -/

section DictLemmas

variable {κ α : Type} [DecidableEq κ]

theorem alookup_pyInsert_self (m : List (κ × α)) (k : κ) (v : α) :
    alookup (pyInsert m k v) k = some v := by
  induction m with
  | nil => simp [pyInsert, alookup]
  | cons e rest ih =>
      obtain ⟨k0, v0⟩ := e
      by_cases h : k0 = k <;> simp [pyInsert, alookup, h, ih]

theorem alookup_pyInsert_ne (m : List (κ × α)) (k k1 : κ) (v : α) (h : k1 ≠ k) :
    alookup (pyInsert m k v) k1 = alookup m k1 := by
  induction m with
  | nil =>
      have hne : ¬k = k1 := fun hh => h hh.symm
      simp [pyInsert, alookup, hne]
  | cons e rest ih =>
      obtain ⟨k0, v0⟩ := e
      by_cases h0 : k0 = k
      · subst h0
        have hne : ¬k0 = k1 := fun hh => h hh.symm
        simp [pyInsert, alookup, hne]
      · simp [pyInsert, alookup, h0, ih]

theorem alookup_pyPop_self (m : List (κ × α)) (k : κ) :
    alookup (pyPop m k) k = none := by
  induction m with
  | nil => simp [pyPop, alookup]
  | cons e rest ih =>
      obtain ⟨k0, v0⟩ := e
      by_cases h : k0 = k <;> simp [pyPop, alookup, h, ih]

theorem alookup_pyPop_ne (m : List (κ × α)) (k k1 : κ) (h : k1 ≠ k) :
    alookup (pyPop m k) k1 = alookup m k1 := by
  induction m with
  | nil => simp [pyPop, alookup]
  | cons e rest ih =>
      obtain ⟨k0, v0⟩ := e
      by_cases h0 : k0 = k
      · subst h0
        have hne : ¬k0 = k1 := fun hh => h hh.symm
        simp [pyPop, alookup, hne, ih]
      · simp [pyPop, alookup, h0, ih]

end DictLemmas

/-! ## Claim C2: gating evaluation -/

namespace MCPToolGateway

theorem isToolAllowed_mode_irrelevant (cfg : GatewayConfig) (gd : GatingDict)
    (m1 m2 : String) (t : MTool) (p : String) :
    isToolAllowed { cfg with tool_gating := some { gd with mode := some m1 } } t p =
      isToolAllowed { cfg with tool_gating := some { gd with mode := some m2 } } t p := by
  cases halo : alookup (cfg.project_overrides.getD []) p with
  | none => simp [isToolAllowed, getEffectiveConfig, halo]
  | some ov => simp [isToolAllowed, getEffectiveConfig, updateGating, halo]

end MCPToolGateway

/-- C2: for every tool descriptor and project, gating accepts exactly when
the name is not blocked, the origin server passes a configured server
allow-list, and the name passes a configured tool allow-list, all under
the effective policy; mode "none" rejects every tool, and modes "all" and
"selective" filter to exactly the same set. -/
theorem C2_gating_evaluation (cfg : GatewayConfig) (t : MTool) (p : String)
    (tools : List MTool) (gd : GatingDict) :
    (MCPToolGateway.isToolAllowed cfg t p = true ↔
      MCPToolGateway.gatingSpec (MCPToolGateway.getEffectiveConfig cfg p) t)
    ∧ MCPToolGateway.filterToolsByGating
        { cfg with tool_gating := some { gd with mode := some "none" } } tools p = []
    ∧ MCPToolGateway.filterToolsByGating
        { cfg with tool_gating := some { gd with mode := some "all" } } tools p =
      MCPToolGateway.filterToolsByGating
        { cfg with tool_gating := some { gd with mode := some "selective" } } tools p := by
  refine ⟨?_, ?_, ?_⟩
  · by_cases hb : t.name ∈ (MCPToolGateway.getEffectiveConfig cfg p).blocked_tools.getD []
    · simp [MCPToolGateway.isToolAllowed, MCPToolGateway.gatingSpec, hb]
    · cases hs : (MCPToolGateway.getEffectiveConfig cfg p).allowed_servers.getD none with
      | none =>
          cases ht : (MCPToolGateway.getEffectiveConfig cfg p).allowed_tools.getD none with
          | none => simp [MCPToolGateway.isToolAllowed, MCPToolGateway.gatingSpec, hb, hs, ht]
          | some ts => simp [MCPToolGateway.isToolAllowed, MCPToolGateway.gatingSpec, hb, hs, ht]
      | some servers =>
          by_cases hsm : t.serverName.getD "" ∈ servers
          · cases ht : (MCPToolGateway.getEffectiveConfig cfg p).allowed_tools.getD none with
            | none =>
                simp [MCPToolGateway.isToolAllowed, MCPToolGateway.gatingSpec, hb, hs, hsm, ht]
            | some ts =>
                simp [MCPToolGateway.isToolAllowed, MCPToolGateway.gatingSpec, hb, hs, hsm, ht]
          · simp [MCPToolGateway.isToolAllowed, MCPToolGateway.gatingSpec, hb, hs, hsm]
  · simp [MCPToolGateway.filterToolsByGating]
  · have hmode : ∀ t1 : MTool,
        MCPToolGateway.isToolAllowed
          { cfg with tool_gating := some { gd with mode := some "all" } } t1 p =
        MCPToolGateway.isToolAllowed
          { cfg with tool_gating := some { gd with mode := some "selective" } } t1 p :=
      fun t1 => MCPToolGateway.isToolAllowed_mode_irrelevant cfg gd "all" "selective" t1 p
    simp only [MCPToolGateway.filterToolsByGating]
    simp only [Option.getD_some]
    norm_num
    exact List.filter_congr fun t1 _ => hmode t1

/-! ## Claim C3: project overrides replace keys verbatim -/

/-- C3: the effective policy is the base tool_gating dict with each key
present in the override of the project replacing the base value verbatim and
absent keys keeping the base value; concretely, with base
blocked_tools=["x"] and override blocked_tools=[] for project "P", tool
"x" is accepted for "P" and rejected for every other project. -/
theorem C3_override_replacement (cfg : GatewayConfig) (p : String) :
    (∀ ov, alookup (cfg.project_overrides.getD []) p = some ov →
        (MCPToolGateway.getEffectiveConfig cfg p).mode
            = (ov.mode <|> (cfg.tool_gating.getD {}).mode)
        ∧ (MCPToolGateway.getEffectiveConfig cfg p).blocked_tools
            = (ov.blocked_tools <|> (cfg.tool_gating.getD {}).blocked_tools)
        ∧ (MCPToolGateway.getEffectiveConfig cfg p).allowed_servers
            = (ov.allowed_servers <|> (cfg.tool_gating.getD {}).allowed_servers)
        ∧ (MCPToolGateway.getEffectiveConfig cfg p).allowed_tools
            = (ov.allowed_tools <|> (cfg.tool_gating.getD {}).allowed_tools))
    ∧ (alookup (cfg.project_overrides.getD []) p = none →
        MCPToolGateway.getEffectiveConfig cfg p = cfg.tool_gating.getD {})
    ∧ MCPToolGateway.isToolAllowed exCfgC3 exToolC3 "P" = true
    ∧ (∀ q, q ≠ "P" → MCPToolGateway.isToolAllowed exCfgC3 exToolC3 q = false) := by
  refine ⟨?_, ?_, ?_, ?_⟩
  · intro ov hov
    simp [MCPToolGateway.getEffectiveConfig, MCPToolGateway.updateGating, hov]
  · intro hnone
    simp [MCPToolGateway.getEffectiveConfig, hnone]
  · rfl
  · intro q hq
    have hne : ¬("P" = q) := fun hh => hq hh.symm
    simp [MCPToolGateway.isToolAllowed, MCPToolGateway.getEffectiveConfig, exCfgC3,
          exToolC3, alookup, hne]

/-- Witness for C3: the effective-policy consequences at the concrete
scenario, from the theorem applied at projects "P" and "Q". -/
theorem C3_override_replacement_witness :
    MCPToolGateway.isToolAllowed exCfgC3 exToolC3 "P" = true
    ∧ MCPToolGateway.isToolAllowed exCfgC3 exToolC3 "Q" = false :=
  ⟨(C3_override_replacement exCfgC3 "P").2.2.1,
   (C3_override_replacement exCfgC3 "P").2.2.2 "Q" (by decide)⟩

/-! ## Claim C10: unknown gating modes bypass the checks -/

/-- C10: any mode other than "none", "all" and "selective" makes the
filter return the discovered list unchanged, while mode "all" still
filters every tool through _is_tool_allowed. -/
theorem C10_unknown_mode_bypasses (cfg : GatewayConfig) (gd : GatingDict)
    (tools : List MTool) (p m : String)
    (h1 : m ≠ "none") (h2 : m ≠ "all") (h3 : m ≠ "selective") :
    MCPToolGateway.filterToolsByGating
        { cfg with tool_gating := some { gd with mode := some m } } tools p = tools
    ∧ MCPToolGateway.filterToolsByGating
        { cfg with tool_gating := some { gd with mode := some "all" } } tools p
      = tools.filter (fun t => MCPToolGateway.isToolAllowed
          { cfg with tool_gating := some { gd with mode := some "all" } } t p) := by
  constructor
  · simp [MCPToolGateway.filterToolsByGating, h1, h2, h3]
  · simp [MCPToolGateway.filterToolsByGating]

/-- Witness for C10: with mode "weird" and tool "x" blocked, the filter
returns the blocked tool anyway. -/
theorem C10_unknown_mode_bypasses_witness :
    MCPToolGateway.filterToolsByGating
        { tool_gating := some { mode := some "weird", blocked_tools := some ["x"] } }
        [{ name := "x" }] "P" = [{ name := "x" }] :=
  (C10_unknown_mode_bypasses { tool_gating := none } { blocked_tools := some ["x"] }
      [{ name := "x" }] "P" "weird" (by decide) (by decide) (by decide)).1

/-! ## Claim C5: discovery tolerates a failing client -/

namespace MCPServerManager

theorem getAvailableTools_foldl (serverConfigs : List ServerConfig)
    (clients : List MCPServerManager.MClient) (acc : List MTool) :
    clients.foldl
      (fun allTools client =>
        match client.listToolsResult with
        | .error _ => allTools
        | .ok tools =>
            allTools ++
              ((tools.filter (fun t => serverAllowsTool t.name
                  (serverConfigs.find? (fun c => decide (c.name = client.name))))).map
                (fun t => { t with serverName := some client.name })))
      acc
      = acc ++ (clients.map (clientContribution serverConfigs)).flatten := by
  induction clients generalizing acc with
  | nil => simp
  | cons c rest ih =>
      cases hc : c.listToolsResult with
      | error e => simp [List.foldl_cons, hc, ih, clientContribution]
      | ok tools => simp [List.foldl_cons, hc, ih, clientContribution]

theorem join_contribution_filter (serverConfigs : List ServerConfig)
    (clients : List MCPServerManager.MClient) :
    (clients.map (clientContribution serverConfigs)).flatten
      = ((clients.filter (fun c => c.listToolsResult.isOk)).map
          (clientContribution serverConfigs)).flatten := by
  induction clients with
  | nil => rfl
  | cons c rest ih =>
      cases hc : c.listToolsResult with
      | error e => simp [hc, clientContribution, Except.isOk, Except.toBool, ih]
      | ok tools => simp [hc, Except.isOk, Except.toBool, ih]

end MCPServerManager

/-- C5: get_available_tools returns exactly the concatenated contributions
of the clients, a failing client contributing zero tools (failure never
propagates: dropping the failing clients leaves the result unchanged),
each surviving descriptor filtered by the allow-list of its own server and
tagged with its origin server name. -/
theorem C5_failing_client_isolation (serverConfigs : List ServerConfig)
    (clients : List MCPServerManager.MClient) :
    (MCPServerManager.getAvailableTools serverConfigs clients
      = (clients.map (MCPServerManager.clientContribution serverConfigs)).flatten)
    ∧ (MCPServerManager.getAvailableTools serverConfigs clients
      = MCPServerManager.getAvailableTools serverConfigs
          (clients.filter (fun c => c.listToolsResult.isOk)))
    ∧ (∀ c e, c.listToolsResult = Except.error e →
        MCPServerManager.clientContribution serverConfigs c = [])
    ∧ (∀ c tools, c.listToolsResult = Except.ok tools →
        MCPServerManager.clientContribution serverConfigs c
          = (tools.filter (fun t => MCPServerManager.serverAllowsTool t.name
              (serverConfigs.find? (fun cf => decide (cf.name = c.name))))).map
            (fun t => { t with serverName := some c.name })) := by
  refine ⟨?_, ?_, ?_, ?_⟩
  · simpa using MCPServerManager.getAvailableTools_foldl serverConfigs clients []
  · have h1 := MCPServerManager.getAvailableTools_foldl serverConfigs clients []
    have h2 := MCPServerManager.getAvailableTools_foldl serverConfigs
      (clients.filter (fun c => c.listToolsResult.isOk)) []
    simp only [MCPServerManager.getAvailableTools]
    rw [h1, h2, MCPServerManager.join_contribution_filter]
  · intro c e hc
    simp [MCPServerManager.clientContribution, hc]
  · intro c tools hc
    simp [MCPServerManager.clientContribution, hc]

/-- Witness for C5: two servers, the first failing list_tools, the second
returning tools t2 and t3 under an allow-list containing only t2; the
result is exactly t2 tagged with server "S2". -/
theorem C5_failing_client_isolation_witness :
    MCPServerManager.getAvailableTools
        [{ name := "S1" }, { name := "S2", allowed_tools := some ["t2"] }]
        [{ name := "S1", listToolsResult := Except.error "boom" },
         { name := "S2", listToolsResult := Except.ok [{ name := "t2" }, { name := "t3" }] }]
      = [{ name := "t2", serverName := some "S2" }] := by
  have h := (C5_failing_client_isolation
      [{ name := "S1" }, { name := "S2", allowed_tools := some ["t2"] }]
      [{ name := "S1", listToolsResult := Except.error "boom" },
       { name := "S2", listToolsResult := Except.ok [{ name := "t2" }, { name := "t3" }] }]).1
  rw [h]
  rfl

/-! ## Claim C1: response correlation by request id -/

namespace MCPClient

theorem handleResponse_frame (pending : PendingMap) (msg : Message) (k : Nat)
    (h : msg.id ≠ some k) :
    alookup (handleResponse pending msg) k = alookup pending k := by
  cases hid : msg.id with
  | none => simp [handleResponse, hid]
  | some j =>
      have hk : k ≠ j := fun hh => h (by rw [hid, hh])
      cases halo : alookup pending j with
      | none => simp [handleResponse, hid, halo]
      | some fut =>
          by_cases hd : fut.done
          · simp [handleResponse, hid, halo, hd]
          · simp [handleResponse, hid, halo, hd, alookup_pyInsert_ne pending j k _ hk]

theorem handleResponse_completes (pending : PendingMap) (msg : Message) (j : Nat)
    (hid : msg.id = some j) (hpend : alookup pending j = some FutureState.pending) :
    alookup (handleResponse pending msg) j = some (FutureState.resolved msg) := by
  simp [handleResponse, hid, hpend, FutureState.done, alookup_pyInsert_self]

theorem handleResponse_done_stable (pending : PendingMap) (msg : Message) (j : Nat)
    (fut : FutureState) (hd : fut.done = true) (h : alookup pending j = some fut) :
    alookup (handleResponse pending msg) j = some fut := by
  by_cases hid : msg.id = some j
  · simp [handleResponse, hid, h, hd]
  · rw [handleResponse_frame pending msg j hid]
    exact h

theorem foldl_handleResponse_done_stable (msgs : List Message) (pending : PendingMap)
    (j : Nat) (fut : FutureState) (hd : fut.done = true)
    (h : alookup pending j = some fut) :
    alookup (msgs.foldl handleResponse pending) j = some fut := by
  induction msgs generalizing pending with
  | nil => exact h
  | cons m0 rest ih =>
      rw [List.foldl_cons]
      exact ih _ (handleResponse_done_stable pending m0 j fut hd h)

end MCPClient

/-- C1: a message carrying an id completes exactly the pending entry
registered under that id — the lookup of every other entry is untouched, and
the matching pending future is resolved with the message itself — and for
any set of pending requests and any arrival order of responses with
distinct ids, each pending entry ends up resolved with the response
bearing its own request id. -/
theorem C1_response_correlation (pending : MCPClient.PendingMap) (msg : Message)
    (j : Nat) (msgs : List Message) (hid : msg.id = some j) :
    (∀ k, k ≠ j → alookup (MCPClient.handleResponse pending msg) k = alookup pending k)
    ∧ (alookup pending j = some MCPClient.FutureState.pending →
        alookup (MCPClient.handleResponse pending msg) j
          = some (MCPClient.FutureState.resolved msg))
    ∧ ((∀ m, m ∈ msgs → m.id = some j → m = msg) → msg ∈ msgs →
        alookup pending j = some MCPClient.FutureState.pending →
        alookup (msgs.foldl MCPClient.handleResponse pending) j
          = some (MCPClient.FutureState.resolved msg)) := by
  refine ⟨?_, ?_, ?_⟩
  · intro k hk
    refine MCPClient.handleResponse_frame pending msg k ?_
    rw [hid]
    intro hh
    exact hk (Option.some.inj hh).symm
  · intro hpend
    exact MCPClient.handleResponse_completes pending msg j hid hpend
  · induction msgs generalizing pending with
    | nil => intro _ hmem _; exact absurd hmem (List.not_mem_nil msg)
    | cons m0 rest ih =>
        intro huniq hmem hpend
        rw [List.foldl_cons]
        by_cases h0 : m0.id = some j
        · have heq : m0 = msg := huniq m0 (List.mem_cons_self m0 rest) h0
          subst heq
          have h1 : alookup (MCPClient.handleResponse pending m0) j
              = some (MCPClient.FutureState.resolved m0) :=
            MCPClient.handleResponse_completes pending m0 j h0 hpend
          exact MCPClient.foldl_handleResponse_done_stable rest _ j _ rfl h1
        · have h1 : alookup (MCPClient.handleResponse pending m0) j = alookup pending j :=
            MCPClient.handleResponse_frame pending m0 j h0
          have hmem1 : msg ∈ rest := by
            rcases List.mem_cons.mp hmem with he | hr
            · exact absurd (he ▸ hid) h0
            · exact hr
          exact ih _ (fun m hm hmid => huniq m (List.mem_cons_of_mem m0 hm) hmid)
            hmem1 (h1.trans hpend)

/-- Witness for C1: with requests 1 and 2 pending and the responses
arriving out of order (2 first), entry 1 still resolves with response 1. -/
theorem C1_response_correlation_witness :
    alookup (List.foldl MCPClient.handleResponse pendC1 [msgC1b, msgC1a]) 1
      = some (MCPClient.FutureState.resolved msgC1a) := by
  refine (C1_response_correlation pendC1 msgC1a 1 [msgC1b, msgC1a] rfl).2.2 ?_ ?_ ?_
  · intro m hm hmid
    rcases List.mem_cons.mp hm with he | hr
    · rw [he] at hmid
      exact absurd hmid (by simp [msgC1b])
    · rcases List.mem_cons.mp hr with he2 | hr2
      · exact he2
      · exact absurd hr2 (List.not_mem_nil m)
  · exact List.mem_cons_of_mem msgC1b (List.mem_cons_self msgC1a [])
  · rfl

/-! ## Claim C8: a timeout removes only the entry of that request -/

/-- C8: on a timeout, the caller receives the timeout error, the timed-out
freshly allocated id of the timed-out request is absent afterwards,
and every other pending entry is exactly as before. -/
theorem C8_timeout_isolation (st : MCPClient.ClientState) (timeoutStr : String)
    (h : st.connected = true) :
    (MCPClient.sendRequest st timeoutStr MCPClient.Outcome.timeout).2
        = Except.error ("Request timeout after " ++ timeoutStr ++ " seconds")
    ∧ alookup (MCPClient.sendRequest st timeoutStr MCPClient.Outcome.timeout).1.pending
        (st.requestId + 1) = none
    ∧ ∀ k, k ≠ st.requestId + 1 →
        alookup (MCPClient.sendRequest st timeoutStr MCPClient.Outcome.timeout).1.pending k
          = alookup st.pending k := by
  refine ⟨?_, ?_, ?_⟩
  · simp [MCPClient.sendRequest, h]
  · simp [MCPClient.sendRequest, h, alookup_pyPop_self]
  · intro k hk
    simp only [MCPClient.sendRequest, h, if_pos]
    rw [alookup_pyPop_ne _ _ _ hk, alookup_pyInsert_ne _ _ _ _ hk]

/-- Witness for C8: request 2 times out; the caller sees the timeout error
and the pending entry of request 1 is untouched. -/
theorem C8_timeout_isolation_witness :
    (MCPClient.sendRequest stC8 "30.0" MCPClient.Outcome.timeout).2
        = Except.error "Request timeout after 30.0 seconds"
    ∧ alookup (MCPClient.sendRequest stC8 "30.0" MCPClient.Outcome.timeout).1.pending 1
        = some MCPClient.FutureState.pending := by
  have h := C8_timeout_isolation stC8 "30.0" rfl
  exact ⟨h.1, (h.2.2 1 (by decide)).trans rfl⟩

/-! ## Claim C6: handshake failure path -/

/-- Counterexample for C6: a handshake error on a fresh client leaves the
client disconnected and propagates a connection error, but the spawned
subprocess is still running afterwards — connect terminates nothing on the
handshake-failure path, contradicting the claim that the transport is shut
down as part of the failure path. -/
theorem C6_handshake_counterexample :
    (MCPClient.connect (MCPClient.initClient "srv") true
        (Except.error "timeout")).1.connected = false
    ∧ (MCPClient.connect (MCPClient.initClient "srv") true
        (Except.error "timeout")).2
      = some "Failed to connect to MCP server srv: Initialization failed: timeout"
    ∧ (MCPClient.connect (MCPClient.initClient "srv") true
        (Except.error "timeout")).1.processRunning = true :=
  ⟨rfl, rfl, rfl⟩

/-- C6 amended: whenever the subprocess spawn succeeds and the handshake
errors or times out, connect leaves the client disconnected and propagates
the failure as a connection error, but the spawned subprocess is left
running (the failure path does not shut the transport down). -/
theorem C6_handshake_failure_amended (st : MCPClient.ClientState) (e : String) :
    (MCPClient.connect st true (Except.error e)).1.connected = false
    ∧ (MCPClient.connect st true (Except.error e)).2
      = some ("Failed to connect to MCP server " ++ st.name
              ++ ": Initialization failed: " ++ e)
    ∧ (MCPClient.connect st true (Except.error e)).1.processRunning = true :=
  ⟨rfl, rfl, rfl⟩

/-! ## Claim C7: connect-then-disconnect and the Closed state -/

/-- Counterexample for C7: after connect() followed by disconnect(), the
client is disconnected with an empty pending map — but that state is not
terminal: calling connect() again on the same instance succeeds and makes
it connected again, contradicting the claim that no operation transitions
the client out of Closed and a new instance is required to reconnect. -/
theorem C7_closed_counterexample :
    (MCPClient.disconnect
        (MCPClient.connect (MCPClient.initClient "srv") true (Except.ok .null)).1).connected
      = false
    ∧ (MCPClient.disconnect
        (MCPClient.connect (MCPClient.initClient "srv") true (Except.ok .null)).1).pending
      = []
    ∧ (MCPClient.connect
        (MCPClient.disconnect
          (MCPClient.connect (MCPClient.initClient "srv") true (Except.ok .null)).1)
        true (Except.ok .null)).1.connected = true
    ∧ (MCPClient.connect
        (MCPClient.disconnect
          (MCPClient.connect (MCPClient.initClient "srv") true (Except.ok .null)).1)
        true (Except.ok .null)).2 = none :=
  ⟨rfl, rfl, rfl, rfl⟩

/-- C7 amended: connect() followed immediately by disconnect() always
leaves the client disconnected, with an empty pending-request map and no
running subprocess; that state is not terminal, however — a further
connect() on the same instance with a successful spawn and handshake
returns the client to the connected state (the code tracks only a
connected flag and permits reconnection of the same instance). -/
theorem C7_connect_disconnect_amended (st : MCPClient.ClientState) (spawnOk : Bool)
    (handshake : Except String JVal) (caps : JVal) :
    ((MCPClient.disconnect (MCPClient.connect st spawnOk handshake).1).connected = false
      ∧ (MCPClient.disconnect (MCPClient.connect st spawnOk handshake).1).pending = []
      ∧ (MCPClient.disconnect (MCPClient.connect st spawnOk handshake).1).processRunning
          = false)
    ∧ (MCPClient.connect
        (MCPClient.disconnect (MCPClient.connect st spawnOk handshake).1)
        true (Except.ok caps)).1.connected = true :=
  ⟨⟨rfl, rfl, rfl⟩, rfl⟩

/-! ## Claim C4: invocation never raises and validates/defaults arguments -/

namespace MCPToolWrapper

theorem requiredScan_finds (arguments : ArgMap) (req : List String)
    (h : ∃ r, r ∈ req ∧ alookup arguments r = none) :
    ∃ r, r ∈ req ∧ alookup arguments r = none ∧
      requiredScan arguments req = some ("Missing required argument: " ++ r) := by
  induction req with
  | nil =>
      rcases h with ⟨r, hr, _⟩
      exact absurd hr (List.not_mem_nil r)
  | cons r0 rest ih =>
      by_cases h0 : (alookup arguments r0).isNone
      · refine ⟨r0, List.mem_cons_self r0 rest, Option.isNone_iff_eq_none.mp h0, ?_⟩
        simp [requiredScan, h0]
      · rcases h with ⟨r, hr, hnone⟩
        have hr1 : r ∈ rest := by
          rcases List.mem_cons.mp hr with he | hrr
          · subst he
            exact absurd (Option.isNone_iff_eq_none.mpr hnone) h0
          · exact hrr
        rcases ih ⟨r, hr1, hnone⟩ with ⟨r1, h1, h2, h3⟩
        exact ⟨r1, List.mem_cons_of_mem r0 h1, h2, by simp [requiredScan, h0, h3]⟩

theorem applyDefaultsStep_preserve (acc : ArgMap) (e : String × JSchema)
    (p : String) (v : JVal) (h : alookup acc p = some v) :
    alookup (applyDefaultsStep acc e) p = some v := by
  by_cases hp : e.1 = p
  · have : (alookup acc e.1).isNone = false := by rw [hp, h]; rfl
    simp [applyDefaultsStep, this, h]
  · simp only [applyDefaultsStep]
    by_cases hn : (alookup acc e.1).isNone
    · cases hd : e.2.dflt with
      | some d =>
          simp [hn, hd, alookup_pyInsert_ne acc e.1 p d (fun hh => hp hh.symm), h]
      | none => simp [hn, hd, h]
    · simp [hn, h]

theorem foldl_applyDefaultsStep_preserve (props : List (String × JSchema))
    (acc : ArgMap) (p : String) (v : JVal) (h : alookup acc p = some v) :
    alookup (props.foldl applyDefaultsStep acc) p = some v := by
  induction props generalizing acc with
  | nil => exact h
  | cons e rest ih =>
      rw [List.foldl_cons]
      exact ih _ (applyDefaultsStep_preserve acc e p v h)

theorem foldl_applyDefaultsStep_lookup (props : List (String × JSchema))
    (args : ArgMap) (p : String) (ps : JSchema) (d : JVal)
    (hp : alookup props p = some ps) (hd : JSchema.dflt ps = some d)
    (hmiss : alookup args p = none) :
    alookup (props.foldl applyDefaultsStep args) p = some d := by
  induction props generalizing args with
  | nil => cases hp
  | cons e rest ih =>
      obtain ⟨n, q⟩ := e
      by_cases hnp : n = p
      · subst hnp
        have hq : q = ps := by simpa [alookup] using hp
        subst hq
        rw [List.foldl_cons]
        have hstep : applyDefaultsStep args (n, q) = pyInsert args n d := by
          simp [applyDefaultsStep, hmiss, hd]
        rw [hstep]
        exact foldl_applyDefaultsStep_preserve rest _ n d (alookup_pyInsert_self args n d)
      · have hp1 : alookup rest p = some ps := by simpa [alookup, hnp] using hp
        rw [List.foldl_cons]
        have hmiss1 : alookup (applyDefaultsStep args (n, q)) p = none := by
          simp only [applyDefaultsStep]
          by_cases hn : (alookup args n).isNone
          · cases hdq : JSchema.dflt q with
            | some d0 =>
                simpa [hn, hdq,
                  alookup_pyInsert_ne args n p d0 (fun hh => hnp hh.symm)] using hmiss
            | none => simpa [hn, hdq] using hmiss
          · simpa [hn] using hmiss
        exact ih _ hp1 hmiss1

end MCPToolWrapper

/-- C4: invocation with a disconnected client returns a failure result
immediately (call_tool is a total function into ToolResult, so nothing
ever propagates as an exception); a missing required property yields a
failure result whose message names a missing required property; when
validation passes, every omitted property carrying a schema default is
present in the arguments handed to the remote call with exactly that
default, and the result is exactly the handling of the remote outcome on
those completed arguments; an exception raised by the remote call becomes
a failure result carrying the exception text. -/
theorem C4_invocation_safety (serverName toolName : String) (schema : JSchema)
    (arguments : ArgMap) (remoteCall : ArgMap → MCPToolWrapper.RemoteOutcome)
    (p : String) (ps : JSchema) (d : JVal) (e : String) :
    MCPToolWrapper.callTool false serverName toolName schema arguments remoteCall
      = { success := false, output := "MCP server " ++ serverName ++ " is not connected" }
    ∧ ((∃ r, r ∈ schema.required ∧ alookup arguments r = none) →
        ∃ r, r ∈ schema.required ∧ alookup arguments r = none ∧
          MCPToolWrapper.callTool true serverName toolName schema arguments remoteCall
            = { success := false, output := "Missing required argument: " ++ r })
    ∧ (MCPToolWrapper.validateArguments schema arguments = (true, none) →
        (alookup schema.props p = some ps → JSchema.dflt ps = some d →
            alookup arguments p = none →
            alookup (MCPToolWrapper.applyDefaults schema arguments) p = some d)
        ∧ MCPToolWrapper.callTool true serverName toolName schema arguments remoteCall
            = MCPToolWrapper.handleRemoteOutcome toolName
                (remoteCall (MCPToolWrapper.applyDefaults schema arguments)))
    ∧ (MCPToolWrapper.validateArguments schema arguments = (true, none) →
        MCPToolWrapper.callTool true serverName toolName schema arguments
            (fun _ => MCPToolWrapper.RemoteOutcome.raises e)
          = { success := false,
              output := "Error calling MCP tool " ++ toolName ++ ": " ++ e }) := by
  refine ⟨rfl, ?_, ?_, ?_⟩
  · intro hex
    rcases MCPToolWrapper.requiredScan_finds arguments schema.required hex with
      ⟨r, h1, h2, h3⟩
    refine ⟨r, h1, h2, ?_⟩
    simp [MCPToolWrapper.callTool, MCPToolWrapper.validateArguments, h3]
  · intro hval
    refine ⟨?_, ?_⟩
    · intro hp hd hmiss
      exact MCPToolWrapper.foldl_applyDefaultsStep_lookup schema.props arguments p ps d
        hp hd hmiss
    · simp [MCPToolWrapper.callTool, hval]
  · intro hval
    simp [MCPToolWrapper.callTool, hval, MCPToolWrapper.handleRemoteOutcome]

/-- Witness for C4: calling with a=5 and precision omitted completes the
arguments with precision=2, and a transport exception "boom" becomes a
failure result carrying that text. -/
theorem C4_invocation_safety_witness :
    MCPToolWrapper.callTool true "S" "fmt" schemaC4 [("a", JVal.int 5)]
        (fun _ => MCPToolWrapper.RemoteOutcome.raises "boom")
      = { success := false, output := "Error calling MCP tool fmt: boom" }
    ∧ alookup (MCPToolWrapper.applyDefaults schemaC4 [("a", JVal.int 5)]) "precision"
        = some (JVal.int 2) := by
  have h := C4_invocation_safety "S" "fmt" schemaC4 [("a", JVal.int 5)]
      (fun _ => MCPToolWrapper.RemoteOutcome.raises "boom") "precision"
      (.mk (some "integer") none (some (.int 2)) [] []) (JVal.int 2) "boom"
  exact ⟨h.2.2.2 rfl, (h.2.2.1 rfl).1 rfl rfl rfl⟩

/-! ## Claim C9: XML flattening of nested schemas -/

section DictAppend

variable {κ α : Type} [DecidableEq κ]

theorem alookup_append_of_none (m1 m2 : List (κ × α)) (k : κ)
    (h : alookup m1 k = none) : alookup (m1 ++ m2) k = alookup m2 k := by
  induction m1 with
  | nil => rfl
  | cons e rest ih =>
      obtain ⟨k0, v0⟩ := e
      by_cases h0 : k0 = k
      · simp [alookup, h0] at h
      · simp [alookup, h0] at h ⊢
        exact ih h

theorem alookup_none_of_not_mem (m : List (κ × α)) (k : κ)
    (h : k ∉ m.map Prod.fst) : alookup m k = none := by
  induction m with
  | nil => rfl
  | cons e rest ih =>
      obtain ⟨k0, v0⟩ := e
      simp only [List.map_cons, List.mem_cons, not_or] at h
      have hne : ¬k0 = k := fun hh => h.1 hh.symm
      simp [alookup, hne, ih h.2]

theorem pyInsert_fresh (m : List (κ × α)) (k : κ) (v : α)
    (h : alookup m k = none) : pyInsert m k v = m ++ [(k, v)] := by
  induction m with
  | nil => rfl
  | cons e rest ih =>
      obtain ⟨k0, v0⟩ := e
      by_cases h0 : k0 = k
      · simp [alookup, h0] at h
      · simp [alookup, h0] at h
        simp [pyInsert, h0, ih h]

theorem pyUpdate_disjoint (acc ext : List (κ × α))
    (hnd : (ext.map Prod.fst).Nodup)
    (hdisj : ∀ k, k ∈ ext.map Prod.fst → alookup acc k = none) :
    pyUpdate acc ext = acc ++ ext := by
  induction ext generalizing acc with
  | nil => simp [pyUpdate]
  | cons e rest ih =>
      obtain ⟨k0, v0⟩ := e
      have h1 : pyInsert acc k0 v0 = acc ++ [(k0, v0)] :=
        pyInsert_fresh acc k0 v0 (hdisj k0 (by simp))
      have hnd1 : (rest.map Prod.fst).Nodup := (List.nodup_cons.mp (by simpa using hnd)).2
      have hk0 : k0 ∉ rest.map Prod.fst := (List.nodup_cons.mp (by simpa using hnd)).1
      have hdisj1 : ∀ k, k ∈ rest.map Prod.fst → alookup (acc ++ [(k0, v0)]) k = none := by
        intro k hk
        rw [alookup_append_of_none acc [(k0, v0)] k (hdisj k (by simp [hk]))]
        have hne : ¬k0 = k := fun hh => hk0 (hh ▸ hk)
        simp [alookup, hne]
      have h2 : pyUpdate (acc ++ [(k0, v0)]) rest = (acc ++ [(k0, v0)]) ++ rest :=
        ih _ hnd1 hdisj1
      calc pyUpdate acc ((k0, v0) :: rest)
          = pyUpdate (pyInsert acc k0 v0) rest := by simp [pyUpdate]
        _ = pyUpdate (acc ++ [(k0, v0)]) rest := by rw [h1]
        _ = (acc ++ [(k0, v0)]) ++ rest := h2
        _ = acc ++ ((k0, v0) :: rest) := by simp

omit [DecidableEq κ] in
theorem map_entry_keys {β : Type} (l : List (κ × β)) (f : β → β) :
    (l.map (fun e => (e.1, f e.2))).map Prod.fst = l.map Prod.fst := by
  induction l with
  | nil => rfl
  | cons e rest ih => simp [ih]

theorem alookup_map_entry (l : List (κ × α)) (f : α → α) (k : κ) (v : α)
    (hnd : (l.map Prod.fst).Nodup) (hmem : (k, v) ∈ l) :
    alookup (l.map (fun e => (e.1, f e.2))) k = some (f v) := by
  induction l with
  | nil => cases hmem
  | cons e rest ih =>
      obtain ⟨k0, v0⟩ := e
      rcases List.mem_cons.mp hmem with he | hr
      · obtain ⟨hk, hv⟩ := Prod.mk.injEq .. ▸ he
        simp [alookup, hk.symm, hv]
      · have hk0 : k0 ∉ rest.map Prod.fst := (List.nodup_cons.mp (by simpa using hnd)).1
        have hkmem : k ∈ rest.map Prod.fst := by
          exact List.mem_map.mpr ⟨(k, v), hr, rfl⟩
        have hne : ¬k0 = k := fun hh => hk0 (hh ▸ hkmem)
        simp only [List.map_cons, alookup, hne, if_false]
        exact ih (List.nodup_cons.mp (by simpa using hnd)).2 hr

end DictAppend

namespace MCPToolWrapper

mutual

theorem flattenSchema_eq_leaves (s : JSchema) (pre : String)
    (hnd : ((leafEntries s pre).map Prod.fst).Nodup) :
    flattenSchemaForXml s pre
      = (leafEntries s pre).map (fun e => (e.1, addDefaultToDescription e.2)) := by
  cases s with
  | mk t ds df rq props =>
      have h := flattenProps_eq_leaves props pre []
        (by simpa [leafEntries] using hnd)
        (by intro k _; rfl)
      simpa [flattenSchemaForXml, leafEntries] using h

theorem flattenProps_eq_leaves (props : List (String × JSchema)) (pre : String)
    (acc : List (String × JSchema))
    (hnd : ((leafEntriesProps props pre).map Prod.fst).Nodup)
    (hdisj : ∀ k, k ∈ (leafEntriesProps props pre).map Prod.fst → alookup acc k = none) :
    flattenProps props pre acc
      = acc ++ (leafEntriesProps props pre).map
          (fun e => (e.1, addDefaultToDescription e.2)) := by
  cases props with
  | nil => simp [flattenProps, leafEntriesProps]
  | cons e rest =>
      obtain ⟨propName, propSchema⟩ := e
      by_cases hobj : JSchema.ty propSchema = some "object"
      · have hsplit : leafEntriesProps ((propName, propSchema) :: rest) pre
            = leafEntries propSchema (if pre = "" then propName else pre ++ "_" ++ propName)
              ++ leafEntriesProps rest pre := by
          simp [leafEntriesProps, hobj]
        rw [hsplit] at hnd hdisj
        simp only [List.map_append] at hnd hdisj
        have hndSub := (List.nodup_append.mp hnd).1
        have hndRest := (List.nodup_append.mp hnd).2.1
        have hsep := (List.nodup_append.mp hnd).2.2
        have hsub := flattenSchema_eq_leaves propSchema
          (if pre = "" then propName else pre ++ "_" ++ propName) hndSub
        have hflat1 : flattenProps ((propName, propSchema) :: rest) pre acc
            = flattenProps rest pre
                (pyUpdate acc (flattenSchemaForXml propSchema
                  (if pre = "" then propName else pre ++ "_" ++ propName))) := by
          simp [flattenProps, hobj]
        have hupd : pyUpdate acc (flattenSchemaForXml propSchema
              (if pre = "" then propName else pre ++ "_" ++ propName))
            = acc ++ (leafEntries propSchema
                (if pre = "" then propName else pre ++ "_" ++ propName)).map
                  (fun e => (e.1, addDefaultToDescription e.2)) := by
          rw [hsub]
          refine pyUpdate_disjoint acc _ ?_ ?_
          · rw [map_entry_keys]
            exact hndSub
          · intro k hk
            rw [map_entry_keys] at hk
            exact hdisj k (List.mem_append.mpr (Or.inl hk))
        have hrec := flattenProps_eq_leaves rest pre
          (acc ++ (leafEntries propSchema
              (if pre = "" then propName else pre ++ "_" ++ propName)).map
                (fun e => (e.1, addDefaultToDescription e.2)))
          hndRest
          (by
            intro k hk
            rw [alookup_append_of_none _ _ k (hdisj k (List.mem_append.mpr (Or.inr hk)))]
            refine alookup_none_of_not_mem _ k ?_
            rw [map_entry_keys]
            intro hmem
            exact (List.disjoint_right.mp hsep) hk hmem)
        rw [hflat1, hupd, hrec, hsplit]
        simp
      · have hsplit : leafEntriesProps ((propName, propSchema) :: rest) pre
            = ((if pre = "" then propName else pre ++ "_" ++ propName), propSchema)
              :: leafEntriesProps rest pre := by
          simp [leafEntriesProps, hobj]
        rw [hsplit] at hnd hdisj
        simp only [List.map_cons] at hnd hdisj
        have hkhead : (if pre = "" then propName else pre ++ "_" ++ propName)
            ∉ (leafEntriesProps rest pre).map Prod.fst := (List.nodup_cons.mp hnd).1
        have hndRest := (List.nodup_cons.mp hnd).2
        have hflat1 : flattenProps ((propName, propSchema) :: rest) pre acc
            = flattenProps rest pre
                (pyInsert acc (if pre = "" then propName else pre ++ "_" ++ propName)
                  (addDefaultToDescription propSchema)) := by
          simp [flattenProps, hobj]
        have hins : pyInsert acc (if pre = "" then propName else pre ++ "_" ++ propName)
              (addDefaultToDescription propSchema)
            = acc ++ [((if pre = "" then propName else pre ++ "_" ++ propName),
                addDefaultToDescription propSchema)] :=
          pyInsert_fresh acc _ _ (hdisj _ (List.mem_cons_self _ _))
        have hrec := flattenProps_eq_leaves rest pre
          (acc ++ [((if pre = "" then propName else pre ++ "_" ++ propName),
              addDefaultToDescription propSchema)])
          hndRest
          (by
            intro k hk
            rw [alookup_append_of_none _ _ k (hdisj k (List.mem_cons_of_mem _ hk))]
            have hne : ¬(if pre = "" then propName else pre ++ "_" ++ propName) = k :=
              fun hh => hkhead (hh ▸ hk)
            simp [alookup, hne])
        rw [hflat1, hins, hrec, hsplit]
        simp

end

end MCPToolWrapper

/-- Counterexample for C9: cxSchemaC9 contains a nested object property
and has two leaf properties, both with joined path "a_b" — but flattening
produces a single entry, not one entry per leaf (the later leaf overwrote
the earlier one in the dict). -/
theorem C9_flattening_counterexample :
    (MCPToolWrapper.leafEntries cxSchemaC9 "").map Prod.fst = ["a_b", "a_b"]
    ∧ (MCPToolWrapper.flattenSchemaForXml cxSchemaC9 "").length = 1 :=
  ⟨rfl, rfl⟩

/-- C9 amended: provided the underscore-joined leaf paths of the schema
are pairwise distinct, flattening produces exactly one entry per leaf
property, keyed by the joined path, and every leaf carrying a default gets
" Default: <str(value)>" appended to its description (the whole string
stripped of surrounding whitespace); without the distinctness proviso,
colliding paths collapse into a single entry. -/
theorem C9_flattening_amended (schema : JSchema)
    (hnd : ((MCPToolWrapper.leafEntries schema "").map Prod.fst).Nodup) :
    MCPToolWrapper.flattenSchemaForXml schema ""
      = (MCPToolWrapper.leafEntries schema "").map
          (fun e => (e.1, MCPToolWrapper.addDefaultToDescription e.2))
    ∧ (MCPToolWrapper.flattenSchemaForXml schema "").map Prod.fst
      = (MCPToolWrapper.leafEntries schema "").map Prod.fst
    ∧ ∀ k ps d, (k, ps) ∈ MCPToolWrapper.leafEntries schema "" →
        JSchema.dflt ps = some d →
        alookup (MCPToolWrapper.flattenSchemaForXml schema "") k
          = some (JSchema.withDescr ps
              (MCPToolWrapper.pyStrip
                ((JSchema.descr ps).getD "" ++ " Default: " ++ pyStr d))) := by
  have h1 := MCPToolWrapper.flattenSchema_eq_leaves schema "" hnd
  refine ⟨h1, ?_, ?_⟩
  · rw [h1, map_entry_keys]
  · intro k ps d hmem hd
    rw [h1, alookup_map_entry _ _ k ps hnd hmem]
    simp [MCPToolWrapper.addDefaultToDescription, hd]

/-- Witness for C9 amended: the nested options schema flattens to keys
options_operation and options_round_result, and the description of the latter
becoming "Default: True". -/
theorem C9_flattening_witness :
    (MCPToolWrapper.flattenSchemaForXml exSchemaC9 "").map Prod.fst
        = ["options_operation", "options_round_result"]
    ∧ alookup (MCPToolWrapper.flattenSchemaForXml exSchemaC9 "") "options_round_result"
        = some (JSchema.mk (some "boolean") (some "Default: True")
            (some (JVal.bool true)) [] []) := by
  have h := C9_flattening_amended exSchemaC9 (by decide)
  refine ⟨?_, ?_⟩
  · rw [h.2.1]
    rfl
  · have he : MCPToolWrapper.leafEntries exSchemaC9 ""
        = [("options_operation", JSchema.mk (some "string") none none [] []),
           ("options_round_result",
             JSchema.mk (some "boolean") none (some (JVal.bool true)) [] [])] := rfl
    have hmem : ("options_round_result",
        JSchema.mk (some "boolean") none (some (JVal.bool true)) [] [])
          ∈ MCPToolWrapper.leafEntries exSchemaC9 "" := by
      rw [he]
      exact List.mem_cons_of_mem _ (List.mem_cons_self _ _)
    have h2 := h.2.2 "options_round_result"
      (JSchema.mk (some "boolean") none (some (JVal.bool true)) [] [])
      (JVal.bool true) hmem rfl
    rw [h2]
    rfl
